import Mathlib

/-!
Shallow embedding of `app/backend/server.py`, a FastAPI chat backend over
MongoDB.  Timestamps are modelled as naturals, document ids as strings, and
the three MongoDB collections (`files`, `messages`, `sessions`) as lists of
documents.  Endpoint handlers become pure functions from the database state
— together with the explicit inputs the real code draws from the clock, the
uuid generator, the process environment and the LLM gateway — to a result
paired with the new database state.
-/

namespace Server

/-- A document of the `files` collection (server.py lines 97-105). -/
structure FileDoc where
  id : String
  filename : String
  path : String
  content_type : String
  size : Nat
  uploaded_at : Nat
deriving DecidableEq, Repr

/-- A document of the `messages` collection: the `Message` pydantic model
(server.py lines 38-46). -/
structure MessageDoc where
  id : String
  session_id : String
  role : String
  content : String
  timestamp : Nat
  files : Option (List String)
deriving DecidableEq, Repr

/-- A document of the `sessions` collection.  Legacy records may lack
`title` or `created_at` (backfilled at read time, server.py lines 206-210),
and a record created by the upsert of `chat_stream` (lines 166-171) carries
only `id` and `updated_at`; hence the optional fields. -/
structure SessionDoc where
  id : String
  title : Option String
  created_at : Option Nat
  updated_at : Option Nat
deriving DecidableEq, Repr

/-- A fully populated session as returned by `GET /api/sessions` after the
read-time backfill (server.py lines 204-211). -/
structure SessionOut where
  id : String
  title : String
  created_at : Nat
  updated_at : Option Nat
deriving DecidableEq, Repr

/-- The three MongoDB collections of the backend. -/
structure DB where
  files : List FileDoc
  messages : List MessageDoc
  sessions : List SessionDoc
deriving DecidableEq, Repr

/-- The environment variables the server reads (server.py lines 23, 25, 122,
242). -/
structure Env where
  mongo_url : Option String
  db_name : Option String
  emergent_llm_key : Option String
  cors_origins : Option String
deriving DecidableEq, Repr

/-- The `ChatRequest` pydantic model (server.py lines 48-51). -/
structure ChatRequest where
  message : String
  session_id : String
  files : Option (List String)
deriving DecidableEq, Repr

/-- `FileContentWithMimeType` as built at server.py lines 144-147. -/
structure FileAttachment where
  file_path : String
  mime_type : String
deriving DecidableEq, Repr

/-- One unit of the server-sent event stream emitted by `generate`
(server.py lines 189 and 192). -/
inductive Frame where
  | data (content : String) (done : Bool)
  | error (msg : String)
deriving DecidableEq, Repr

/-- Outcome of `POST /api/chat/stream`: either an HTTP error raised before
the stream starts, or a streamed body made of frames. -/
inductive ChatResult where
  | httpError (status : Nat) (detail : String)
  | stream (frames : List Frame)
deriving DecidableEq, Repr

/-- Module import time reads `os.environ['MONGO_URL']` and
`os.environ['DB_NAME']` (server.py lines 23-25): startup fails iff either is
absent.  The LLM credential is not read at startup. -/
def startup (env : Env) : Option (String × String) :=
  match env.mongo_url, env.db_name with
  | some u, some d => some (u, d)
  | _, _ => none

/-- BSON comparison used by Mongo sorting on `updated_at`: an absent field
compares as null, below every concrete timestamp. -/
def optLe : Option Nat → Option Nat → Bool
  | none, _ => true
  | some _, none => false
  | some a, some b => decide (a ≤ b)

/-- Comparator realising `.sort("updated_at", -1)` (descending,
server.py line 203). -/
def sessLe (a b : SessionDoc) : Bool :=
  optLe b.updated_at a.updated_at

/-- Comparator realising `.sort("timestamp", 1)` (ascending,
server.py line 224). -/
def msgLe (a b : MessageDoc) : Bool :=
  decide (a.timestamp ≤ b.timestamp)

/-- The read-time backfill loop of `get_sessions` (server.py lines 204-210):
a missing `title` becomes "New Chat" and a missing `created_at` becomes the
record's `updated_at`, falling back to the current time. -/
def backfillSession (now : Nat) (s : SessionDoc) : SessionOut :=
  { id := s.id
    title := s.title.getD "New Chat"
    created_at := s.created_at.getD (s.updated_at.getD now)
    updated_at := s.updated_at }

/-- `GET /api/sessions` (server.py lines 200-211): all sessions sorted by
`updated_at` descending, limited to 100 by `.to_list(100)`, each backfilled. -/
def get_sessions (now : Nat) (db : DB) : List SessionOut × DB :=
  ((((db.sessions.mergeSort sessLe).take 100).map (backfillSession now)), db)

/-- `GET /api/sessions/{id}/messages` (server.py lines 221-227): the
session's messages sorted by `timestamp` ascending, limited to 1000. -/
def get_messages (sid : String) (db : DB) : List MessageDoc × DB :=
  ((((db.messages.filter (fun m => m.session_id == sid)).mergeSort msgLe).take 1000), db)

/-- Mongo `delete_one`: removes the first matching document, if any. -/
def deleteFirst (p : α → Bool) : List α → List α
  | [] => []
  | x :: xs => if p x then xs else x :: deleteFirst p xs

/-- `DELETE /api/sessions/{id}` (server.py lines 229-234): `delete_one` on
the session, `delete_many` on its messages, unconditional success body. -/
def delete_session (sid : String) (db : DB) : String × DB :=
  ("Session deleted",
   { db with
       sessions := deleteFirst (fun s => s.id == sid) db.sessions
       messages := db.messages.filter (fun m => m.session_id != sid) })

/-- Mongo `update_one({"id": sid}, ...)` applied to the first match. -/
def touchList (sid : String) (t : Nat) : List SessionDoc → List SessionDoc
  | [] => []
  | s :: rest =>
      if s.id == sid then { s with updated_at := some t } :: rest
      else s :: touchList sid t rest

/-- The `upsert=True` session update of `chat_stream` (server.py lines
166-171): set `updated_at` on the matching session, or insert a minimal
record holding only the query key and the set field. -/
def touchSession (sid : String) (t : Nat) (ss : List SessionDoc) : List SessionDoc :=
  if ss.any (fun s => s.id == sid) then touchList sid t ss
  else ss ++ [{ id := sid, title := none, created_at := none, updated_at := some t }]

/-- The attachment-resolution loop of `chat_stream` (server.py lines
134-148): each listed id is looked up with `find_one({"id": file_id})`; a
hit contributes its path and content type, a miss is skipped. -/
def resolveFiles (files : List FileDoc) : List String → List FileAttachment
  | [] => []
  | fid :: rest =>
      match files.find? (fun f => f.id == fid) with
      | some f => { file_path := f.path, mime_type := f.content_type } :: resolveFiles files rest
      | none => resolveFiles files rest

/-- The `file_contents` argument handed to the gateway (server.py lines
151-154): `None` when the resolved list is empty, per
`file_contents if file_contents else None`. -/
def sentAttachments (db : DB) (req : ChatRequest) : Option (List FileAttachment) :=
  let r := resolveFiles db.files (req.files.getD [])
  if r.isEmpty then none else some r

/-- The user `Message` persisted by `chat_stream` (server.py lines 156-164):
it records the original file-id list from the request. -/
def userMessage (uid : String) (t : Nat) (req : ChatRequest) : MessageDoc :=
  { id := uid, session_id := req.session_id, role := "user",
    content := req.message, timestamp := t, files := req.files }

/-- The assistant `Message` persisted by `chat_stream` on gateway success
(server.py lines 180-186): no file references. -/
def assistantMessage (uid : String) (t : Nat) (req : ChatRequest) (response : String) : MessageDoc :=
  { id := uid, session_id := req.session_id, role := "assistant",
    content := response, timestamp := t, files := none }

/-- `POST /api/chat/stream` (server.py lines 117-198).  `gw` models
`chat.send_message` as a function of the attachments: `Except.ok` is the
completion text, `Except.error` a raised exception.  `uidU`, `uidA` are the
generated message ids; `tU`, `tTouch`, `tA` the successive clock readings
for the user message, the session touch and the assistant message. -/
def chat_stream (env : Env) (gw : Option (List FileAttachment) → Except String String)
    (uidU uidA : String) (tU tTouch tA : Nat) (req : ChatRequest) (db : DB) :
    ChatResult × DB :=
  match env.emergent_llm_key with
  | none => (ChatResult.httpError 500 "API key not configured", db)
  | some k =>
      if k = "" then (ChatResult.httpError 500 "API key not configured", db)
      else
        let u := userMessage uidU tU req
        let db1 : DB := { db with messages := db.messages ++ [u] }
        let db2 : DB := { db1 with sessions := touchSession req.session_id tTouch db1.sessions }
        match gw (sentAttachments db req) with
        | Except.ok response =>
            (ChatResult.stream [Frame.data response true],
             { db2 with messages := db2.messages ++ [assistantMessage uidA tA req response] })
        | Except.error e =>
            (ChatResult.stream [Frame.error e], db2)

/-! Helper lemmas shared by the claim theorems. -/

theorem optLe_trans : ∀ a b c : Option Nat, optLe a b → optLe b c → optLe a c
  | none, _, _, _, _ => rfl
  | some _, none, _, h, _ => by simp [optLe] at h
  | some _, some _, none, _, h => by simp [optLe] at h
  | some a, some b, some c, h1, h2 => by
      simp only [optLe, decide_eq_true_eq] at h1 h2 ⊢
      exact Nat.le_trans h1 h2

theorem optLe_total : ∀ a b : Option Nat, optLe a b || optLe b a
  | none, _ => by simp [optLe]
  | some _, none => by simp [optLe]
  | some a, some b => by
      simp only [optLe, Bool.or_eq_true, decide_eq_true_eq]
      exact Nat.le_total a b

theorem sessLe_trans (a b c : SessionDoc) (h1 : sessLe a b) (h2 : sessLe b c) :
    sessLe a c :=
  optLe_trans _ _ _ h2 h1

theorem sessLe_total (a b : SessionDoc) : sessLe a b || sessLe b a := by
  simpa [sessLe] using optLe_total b.updated_at a.updated_at

theorem msgLe_trans (a b c : MessageDoc) (h1 : msgLe a b) (h2 : msgLe b c) :
    msgLe a c := by
  simp only [msgLe, decide_eq_true_eq] at h1 h2 ⊢
  exact Nat.le_trans h1 h2

theorem msgLe_total (a b : MessageDoc) : msgLe a b || msgLe b a := by
  simp only [msgLe, Bool.or_eq_true, decide_eq_true_eq]
  exact Nat.le_total a.timestamp b.timestamp

/-- Under a configured, non-empty credential, `chat_stream` reduces to the
linear write sequence followed by the single frame determined by the
gateway's answer. -/
theorem chat_stream_eq (env : Env) (gw : Option (List FileAttachment) → Except String String)
    (uidU uidA : String) (tU tTouch tA : Nat) (req : ChatRequest) (db : DB)
    (k : String) (hk : env.emergent_llm_key = some k) (hk0 : ¬ k = "") :
    chat_stream env gw uidU uidA tU tTouch tA req db =
      match gw (sentAttachments db req) with
      | Except.ok response =>
          (ChatResult.stream [Frame.data response true],
           { db with
               messages := db.messages ++ [userMessage uidU tU req,
                                           assistantMessage uidA tA req response]
               sessions := touchSession req.session_id tTouch db.sessions })
      | Except.error e =>
          (ChatResult.stream [Frame.error e],
           { db with
               messages := db.messages ++ [userMessage uidU tU req]
               sessions := touchSession req.session_id tTouch db.sessions }) := by
  unfold chat_stream
  rw [hk]
  simp only [if_neg hk0]
  cases gw (sentAttachments db req) <;> simp

/-- Concrete fixtures used by the witness theorems. -/
def wEnv : Env :=
  { mongo_url := some "mongodb://localhost:27017", db_name := some "test_database",
    emergent_llm_key := some "sk-emergent", cors_origins := none }

def wEnvNoKey : Env :=
  { mongo_url := some "mongodb://localhost:27017", db_name := some "test_database",
    emergent_llm_key := none, cors_origins := none }

def wDB : DB := { files := [], messages := [], sessions := [] }

def wReq : ChatRequest := { message := "hello", session_id := "s1", files := some [] }

def wReqDangling : ChatRequest :=
  { message := "hello", session_id := "s1", files := some ["no-such-file"] }

def wGwOk : Option (List FileAttachment) → Except String String :=
  fun _ => Except.ok "hi there"

def wGwErr : Option (List FileAttachment) → Except String String :=
  fun _ => Except.error "boom"

/-- C1: a chat request with an empty file list, on a gateway that answers
with a completion, persists exactly one user message carrying the request
text and exactly one assistant message carrying the completion, and streams
exactly one data frame with the completion and done = true. -/
theorem chat_stream_success_spec (env : Env)
    (gw : Option (List FileAttachment) → Except String String)
    (uidU uidA k completion : String) (tU tTouch tA : Nat)
    (req : ChatRequest) (db : DB)
    (hk : env.emergent_llm_key = some k) (hk0 : ¬ k = "")
    (hfiles : req.files = some [])
    (hgw : gw none = Except.ok completion) :
    (chat_stream env gw uidU uidA tU tTouch tA req db).1 =
        ChatResult.stream [Frame.data completion true] ∧
    ∃ u a : MessageDoc,
      (chat_stream env gw uidU uidA tU tTouch tA req db).2.messages =
          db.messages ++ [u, a] ∧
      u.role = "user" ∧ u.content = req.message ∧ u.session_id = req.session_id ∧
      a.role = "assistant" ∧ a.content = completion ∧ a.session_id = req.session_id := by
  have hsent : sentAttachments db req = none := by
    simp [sentAttachments, hfiles, resolveFiles]
  rw [chat_stream_eq env gw uidU uidA tU tTouch tA req db k hk hk0, hsent, hgw]
  exact ⟨rfl, userMessage uidU tU req, assistantMessage uidA tA req completion,
         rfl, rfl, rfl, rfl, rfl, rfl, rfl⟩

theorem chat_stream_success_spec_witness :
    (chat_stream wEnv wGwOk "u1" "a1" 1 2 3 wReq wDB).1 =
        ChatResult.stream [Frame.data "hi there" true] ∧
    ∃ u a : MessageDoc,
      (chat_stream wEnv wGwOk "u1" "a1" 1 2 3 wReq wDB).2.messages =
          wDB.messages ++ [u, a] ∧
      u.role = "user" ∧ u.content = wReq.message ∧ u.session_id = wReq.session_id ∧
      a.role = "assistant" ∧ a.content = "hi there" ∧ a.session_id = wReq.session_id :=
  chat_stream_success_spec wEnv wGwOk "u1" "a1" "sk-emergent" "hi there" 1 2 3 wReq wDB
    rfl (by decide) rfl rfl

/-- C2: when the gateway raises, the already-persisted user message is the
only new message (so it remains and no assistant message is created), and
the stream is exactly one error frame, with nothing after it. -/
theorem chat_stream_failure_spec (env : Env)
    (gw : Option (List FileAttachment) → Except String String)
    (uidU uidA k e : String) (tU tTouch tA : Nat)
    (req : ChatRequest) (db : DB)
    (hk : env.emergent_llm_key = some k) (hk0 : ¬ k = "")
    (hgw : gw (sentAttachments db req) = Except.error e) :
    (chat_stream env gw uidU uidA tU tTouch tA req db).1 =
        ChatResult.stream [Frame.error e] ∧
    (chat_stream env gw uidU uidA tU tTouch tA req db).2.messages =
        db.messages ++ [userMessage uidU tU req] ∧
    (userMessage uidU tU req).role = "user" ∧
    (userMessage uidU tU req).content = req.message ∧
    ∀ m ∈ (chat_stream env gw uidU uidA tU tTouch tA req db).2.messages,
      m.role = "assistant" → m ∈ db.messages := by
  rw [chat_stream_eq env gw uidU uidA tU tTouch tA req db k hk hk0, hgw]
  refine ⟨rfl, rfl, rfl, rfl, ?_⟩
  intro m hm hrole
  rcases List.mem_append.mp hm with h | h
  · exact h
  · rw [List.mem_singleton.mp h] at hrole
    simp [userMessage] at hrole

theorem chat_stream_failure_spec_witness :
    (chat_stream wEnv wGwErr "u1" "a1" 1 2 3 wReq wDB).1 =
        ChatResult.stream [Frame.error "boom"] ∧
    (chat_stream wEnv wGwErr "u1" "a1" 1 2 3 wReq wDB).2.messages =
        wDB.messages ++ [userMessage "u1" 1 wReq] ∧
    (userMessage "u1" 1 wReq).role = "user" ∧
    (userMessage "u1" 1 wReq).content = wReq.message ∧
    ∀ m ∈ (chat_stream wEnv wGwErr "u1" "a1" 1 2 3 wReq wDB).2.messages,
      m.role = "assistant" → m ∈ wDB.messages :=
  chat_stream_failure_spec wEnv wGwErr "u1" "a1" "sk-emergent" "boom" 1 2 3 wReq wDB
    rfl (by decide) rfl

/-- Dropping an id that resolves to no stored file leaves the resolved
attachment list unchanged. -/
theorem resolveFiles_drop (files : List FileDoc) (fid : String)
    (h : files.find? (fun f => f.id == fid) = none) :
    ∀ pre post : List String,
      resolveFiles files (pre ++ fid :: post) = resolveFiles files (pre ++ post)
  | [], post => by simp [resolveFiles, h]
  | x :: pre, post => by
      simp only [List.cons_append, resolveFiles]
      cases files.find? (fun f => f.id == x) <;>
        simp [resolveFiles_drop files fid h pre post]

/-- C3: a chat request whose file-id list contains unresolved ids is not
aborted — the handler still answers with a stream whose single frame is
determined by the gateway's answer on the resolved attachments; unresolved
ids contribute nothing to what is sent; and the persisted user message
carries the original, unresolved id list. -/
theorem chat_stream_dangling_files_spec (env : Env)
    (gw : Option (List FileAttachment) → Except String String)
    (uidU uidA k : String) (tU tTouch tA : Nat)
    (req : ChatRequest) (db : DB) (fids : List String)
    (hk : env.emergent_llm_key = some k) (hk0 : ¬ k = "")
    (hfiles : req.files = some fids) :
    (chat_stream env gw uidU uidA tU tTouch tA req db).1 =
        (match gw (sentAttachments db req) with
         | Except.ok response => ChatResult.stream [Frame.data response true]
         | Except.error e => ChatResult.stream [Frame.error e]) ∧
    (∀ pre post fid, db.files.find? (fun f => f.id == fid) = none →
        resolveFiles db.files (pre ++ fid :: post) = resolveFiles db.files (pre ++ post)) ∧
    (∃ rest, (chat_stream env gw uidU uidA tU tTouch tA req db).2.messages =
        db.messages ++ userMessage uidU tU req :: rest) ∧
    (userMessage uidU tU req).files = some fids := by
  rw [chat_stream_eq env gw uidU uidA tU tTouch tA req db k hk hk0]
  refine ⟨?_, ?_, ?_, ?_⟩
  · cases gw (sentAttachments db req) <;> rfl
  · intro pre post fid h
    exact resolveFiles_drop db.files fid h pre post
  · cases gw (sentAttachments db req) with
    | ok response => exact ⟨[assistantMessage uidA tA req response], rfl⟩
    | error e => exact ⟨[], rfl⟩
  · simp [userMessage, hfiles]

theorem chat_stream_dangling_files_spec_witness :
    (chat_stream wEnv wGwOk "u1" "a1" 1 2 3 wReqDangling wDB).1 =
        (match wGwOk (sentAttachments wDB wReqDangling) with
         | Except.ok response => ChatResult.stream [Frame.data response true]
         | Except.error e => ChatResult.stream [Frame.error e]) ∧
    (∀ pre post fid, wDB.files.find? (fun f => f.id == fid) = none →
        resolveFiles wDB.files (pre ++ fid :: post) = resolveFiles wDB.files (pre ++ post)) ∧
    (∃ rest, (chat_stream wEnv wGwOk "u1" "a1" 1 2 3 wReqDangling wDB).2.messages =
        wDB.messages ++ userMessage "u1" 1 wReqDangling :: rest) ∧
    (userMessage "u1" 1 wReqDangling).files = some ["no-such-file"] :=
  chat_stream_dangling_files_spec wEnv wGwOk "u1" "a1" "sk-emergent" 1 2 3
    wReqDangling wDB ["no-such-file"] rfl (by decide) rfl

/-- C4: with the LLM credential absent from the environment, every chat
request answers HTTP 500 without touching the database, while startup does
not depend on that credential at all (it reads only the Mongo settings). -/
theorem chat_stream_missing_key_spec (env : Env)
    (gw : Option (List FileAttachment) → Except String String)
    (uidU uidA : String) (tU tTouch tA : Nat) (req : ChatRequest) (db : DB)
    (hk : env.emergent_llm_key = none) :
    (chat_stream env gw uidU uidA tU tTouch tA req db).1 =
        ChatResult.httpError 500 "API key not configured" ∧
    (chat_stream env gw uidU uidA tU tTouch tA req db).2 = db ∧
    (∀ key : Option String, startup { env with emergent_llm_key := key } = startup env) := by
  refine ⟨?_, ?_, ?_⟩
  · unfold chat_stream; rw [hk]
  · unfold chat_stream; rw [hk]
  · intro key; cases env; rfl

theorem chat_stream_missing_key_spec_witness :
    (chat_stream wEnvNoKey wGwOk "u1" "a1" 1 2 3 wReq wDB).1 =
        ChatResult.httpError 500 "API key not configured" ∧
    (chat_stream wEnvNoKey wGwOk "u1" "a1" 1 2 3 wReq wDB).2 = wDB ∧
    (∀ key : Option String,
        startup { wEnvNoKey with emergent_llm_key := key } = startup wEnvNoKey) :=
  chat_stream_missing_key_spec wEnvNoKey wGwOk "u1" "a1" 1 2 3 wReq wDB rfl

/-- C5: for every database state, the session list is pairwise descending
in `updated_at` (under the BSON order, absent fields lowest) and holds at
most 100 entries. -/
theorem get_sessions_sorted_bounded (now : Nat) (db : DB) :
    ((get_sessions now db).1).Pairwise
      (fun a b => optLe b.updated_at a.updated_at = true) ∧
    ((get_sessions now db).1).length ≤ 100 := by
  constructor
  · have h : (db.sessions.mergeSort sessLe).Pairwise (fun a b => sessLe a b) :=
      List.sorted_mergeSort sessLe_trans sessLe_total db.sessions
    have h2 := h.sublist (List.take_sublist 100 (db.sessions.mergeSort sessLe))
    unfold get_sessions
    exact List.pairwise_map.mpr (h2.imp (fun hab => hab))
  · unfold get_sessions
    simp only [List.length_map, List.length_take]
    omega

/-- C6: for every session id and database state, the returned messages all
belong to that session, are pairwise ascending in `timestamp`, and number
at most 1000. -/
theorem get_messages_sorted_bounded (sid : String) (db : DB) :
    ((get_messages sid db).1).Pairwise
      (fun a b => a.timestamp ≤ b.timestamp) ∧
    ((get_messages sid db).1).length ≤ 1000 ∧
    ∀ m ∈ (get_messages sid db).1, m ∈ db.messages ∧ m.session_id = sid := by
  refine ⟨?_, ?_, ?_⟩
  · have h : ((db.messages.filter (fun m => m.session_id == sid)).mergeSort msgLe).Pairwise
        (fun a b => msgLe a b) :=
      List.sorted_mergeSort msgLe_trans msgLe_total _
    have h2 := h.sublist (List.take_sublist 1000 _)
    unfold get_messages
    exact h2.imp (fun hab => by simpa [msgLe, decide_eq_true_eq] using hab)
  · unfold get_messages
    simp only [List.length_take]
    omega
  · intro m hm
    unfold get_messages at hm
    have hm2 := (List.take_sublist 1000 _).mem hm
    rw [List.mem_mergeSort, List.mem_filter] at hm2
    exact ⟨hm2.1, by simpa using hm2.2⟩

theorem deleteFirst_of_countP_eq_zero (p : α → Bool) :
    ∀ l : List α, l.countP p = 0 → deleteFirst p l = l
  | [], _ => rfl
  | x :: xs, h => by
      have hx : ¬ p x := (List.countP_eq_zero.mp h) x (List.mem_cons_self x xs)
      have hxs : xs.countP p = 0 :=
        List.countP_eq_zero.mpr (fun a ha => (List.countP_eq_zero.mp h) a (List.mem_cons_of_mem x ha))
      simp [deleteFirst, hx, deleteFirst_of_countP_eq_zero p xs hxs]

theorem deleteFirst_idem (p : α → Bool) :
    ∀ l : List α, l.countP p ≤ 1 → deleteFirst p (deleteFirst p l) = deleteFirst p l
  | [], _ => rfl
  | x :: xs, h => by
      by_cases hx : p x
      · have hxs : xs.countP p = 0 := by
          rw [List.countP_cons, if_pos hx] at h; omega
        simp [deleteFirst, hx, deleteFirst_of_countP_eq_zero p xs hxs]
      · have hxs : xs.countP p ≤ 1 := by
          rw [List.countP_cons, if_neg hx] at h; omega
        simp [deleteFirst, hx, deleteFirst_idem p xs hxs]

theorem deleteFirst_no_match (p : α → Bool) :
    ∀ l : List α, l.countP p ≤ 1 → ∀ a ∈ deleteFirst p l, ¬ p a
  | [], _, a, ha => by simp [deleteFirst] at ha
  | x :: xs, h, a, ha => by
      by_cases hx : p x
      · have hxs : xs.countP p = 0 := by
          rw [List.countP_cons, if_pos hx] at h; omega
        rw [deleteFirst, if_pos hx] at ha
        exact (List.countP_eq_zero.mp hxs) a ha
      · have hxs : xs.countP p ≤ 1 := by
          rw [List.countP_cons, if_neg hx] at h; omega
        rw [deleteFirst, if_neg hx] at ha
        rcases List.mem_cons.mp ha with rfl | ha
        · exact hx
        · exact deleteFirst_no_match p xs hxs a ha

/-- C7: deleting a session (whose id, per the data-model invariant, occurs
at most once) removes its record and every message referencing it, so a
subsequent message listing is empty; repeating the delete changes nothing
further; and the success body is returned unconditionally, in particular
when no such session exists. -/
theorem delete_session_spec (sid : String) (db : DB)
    (huniq : db.sessions.countP (fun s => s.id == sid) ≤ 1) :
    (delete_session sid db).1 = "Session deleted" ∧
    (∀ s ∈ (delete_session sid db).2.sessions, s.id ≠ sid) ∧
    (get_messages sid (delete_session sid db).2).1 = [] ∧
    delete_session sid (delete_session sid db).2 = delete_session sid db := by
  refine ⟨rfl, ?_, ?_, ?_⟩
  · intro s hs
    have hs2 : s ∈ deleteFirst (fun s => s.id == sid) db.sessions := hs
    have := deleteFirst_no_match (fun s => s.id == sid) db.sessions huniq s hs2
    simpa using this
  · unfold get_messages delete_session
    have hnil :
        ((db.messages.filter (fun m => m.session_id != sid)).filter
          (fun m => m.session_id == sid)) = [] := by
      rw [List.filter_eq_nil_iff]
      intro m hm
      have := (List.mem_filter.mp hm).2
      simp only [bne_iff_ne, ne_eq] at this
      simp [this]
    simp [hnil]
  · unfold delete_session
    have hm : ((db.messages.filter (fun m => m.session_id != sid)).filter
        (fun m => m.session_id != sid)) = db.messages.filter (fun m => m.session_id != sid) := by
      rw [List.filter_filter]
      exact List.filter_congr (fun a _ => Bool.and_self _)
    simp [deleteFirst_idem _ _ huniq, hm]

theorem delete_session_spec_witness :
    (delete_session "s1" wDB).1 = "Session deleted" ∧
    (∀ s ∈ (delete_session "s1" wDB).2.sessions, s.id ≠ "s1") ∧
    (get_messages "s1" (delete_session "s1" wDB).2).1 = [] ∧
    delete_session "s1" (delete_session "s1" wDB).2 = delete_session "s1" wDB :=
  delete_session_spec "s1" wDB (by decide)

theorem touchList_mem (sid : String) (t : Nat) :
    ∀ ss : List SessionDoc, ss.any (fun s => s.id == sid) = true →
      ∃ s, s ∈ touchList sid t ss ∧ s.id = sid ∧ s.updated_at = some t
  | [], h => by simp at h
  | x :: xs, h => by
      by_cases hx : x.id == sid
      · refine ⟨{ x with updated_at := some t }, ?_, by simpa using hx, rfl⟩
        simp [touchList, hx]
      · have hxs : xs.any (fun s => s.id == sid) = true := by
          simpa [List.any_cons, hx] using h
        obtain ⟨s, hs, h1, h2⟩ := touchList_mem sid t xs hxs
        exact ⟨s, by simp [touchList, hx, hs], h1, h2⟩

theorem touchSession_mem (sid : String) (t : Nat) (ss : List SessionDoc) :
    ∃ s, s ∈ touchSession sid t ss ∧ s.id = sid ∧ s.updated_at = some t := by
  unfold touchSession
  by_cases h : ss.any (fun s => s.id == sid) = true
  · rw [if_pos h]
    exact touchList_mem sid t ss h
  · rw [if_neg h]
    exact ⟨{ id := sid, title := none, created_at := none, updated_at := some t },
           List.mem_append_right ss (List.mem_singleton.mpr rfl), rfl, rfl⟩

theorem chat_stream_sessions_eq (env : Env)
    (gw : Option (List FileAttachment) → Except String String)
    (uidU uidA : String) (tU tTouch tA : Nat) (req : ChatRequest) (db : DB)
    (k : String) (hk : env.emergent_llm_key = some k) (hk0 : ¬ k = "") :
    (chat_stream env gw uidU uidA tU tTouch tA req db).2.sessions =
      touchSession req.session_id tTouch db.sessions := by
  rw [chat_stream_eq env gw uidU uidA tU tTouch tA req db k hk hk0]
  cases gw (sentAttachments db req) <;> rfl

/-- C8: after the user-message append and the session touch, some session
record carries the request's id with `updated_at` set to the touch time,
which is at least the persisted user message's timestamp; when no session
with that id existed, the touch inserts a minimal record holding only the
id and the new `updated_at`. -/
theorem chat_stream_touch_spec (env : Env)
    (gw : Option (List FileAttachment) → Except String String)
    (uidU uidA k : String) (tU tTouch tA : Nat) (req : ChatRequest) (db : DB)
    (hk : env.emergent_llm_key = some k) (hk0 : ¬ k = "")
    (ht : tU ≤ tTouch) :
    (∃ s m, s ∈ (chat_stream env gw uidU uidA tU tTouch tA req db).2.sessions ∧
       m ∈ (chat_stream env gw uidU uidA tU tTouch tA req db).2.messages ∧
       s.id = req.session_id ∧ s.updated_at = some tTouch ∧
       m.session_id = req.session_id ∧ m.role = "user" ∧ m.timestamp ≤ tTouch) ∧
    ((∀ s ∈ db.sessions, s.id ≠ req.session_id) →
       (chat_stream env gw uidU uidA tU tTouch tA req db).2.sessions =
         db.sessions ++ [{ id := req.session_id, title := none, created_at := none,
                           updated_at := some tTouch }]) := by
  constructor
  · obtain ⟨s, hs, h1, h2⟩ := touchSession_mem req.session_id tTouch db.sessions
    refine ⟨s, userMessage uidU tU req, ?_, ?_, h1, h2, rfl, rfl, ht⟩
    · rw [chat_stream_sessions_eq env gw uidU uidA tU tTouch tA req db k hk hk0]
      exact hs
    · rw [chat_stream_eq env gw uidU uidA tU tTouch tA req db k hk hk0]
      cases gw (sentAttachments db req) <;> simp
  · intro habs
    rw [chat_stream_sessions_eq env gw uidU uidA tU tTouch tA req db k hk hk0]
    unfold touchSession
    rw [if_neg]
    simp only [List.any_eq_true, not_exists, not_and]
    intro s hs
    simpa using habs s hs

theorem chat_stream_touch_spec_witness :
    (∃ s m, s ∈ (chat_stream wEnv wGwOk "u1" "a1" 1 2 3 wReq wDB).2.sessions ∧
       m ∈ (chat_stream wEnv wGwOk "u1" "a1" 1 2 3 wReq wDB).2.messages ∧
       s.id = wReq.session_id ∧ s.updated_at = some 2 ∧
       m.session_id = wReq.session_id ∧ m.role = "user" ∧ m.timestamp ≤ 2) ∧
    ((∀ s ∈ wDB.sessions, s.id ≠ wReq.session_id) →
       (chat_stream wEnv wGwOk "u1" "a1" 1 2 3 wReq wDB).2.sessions =
         wDB.sessions ++ [{ id := wReq.session_id, title := none, created_at := none,
                            updated_at := some 2 }]) :=
  chat_stream_touch_spec wEnv wGwOk "u1" "a1" "sk-emergent" 1 2 3 wReq wDB
    rfl (by decide) (by decide)

/-- C9: session listing leaves the store untouched, and every returned
entry comes from a stored record with the same id and `updated_at`, its
title defaulted to "New Chat" when absent and its `created_at` defaulted to
the record's `updated_at` (or to the current time when that is also
absent). -/
theorem get_sessions_backfill_spec (now : Nat) (db : DB) :
    (get_sessions now db).2 = db ∧
    ∀ o ∈ (get_sessions now db).1, ∃ s, s ∈ db.sessions ∧
      o.id = s.id ∧ o.updated_at = s.updated_at ∧
      o.title = s.title.getD "New Chat" ∧
      o.created_at = s.created_at.getD (s.updated_at.getD now) := by
  refine ⟨rfl, ?_⟩
  intro o ho
  unfold get_sessions at ho
  obtain ⟨s, hs, rfl⟩ := List.mem_map.mp ho
  have hs2 : s ∈ db.sessions := by
    have := (List.take_sublist 100 _).mem hs
    rwa [List.mem_mergeSort] at this
  exact ⟨s, hs2, rfl, rfl, rfl, rfl⟩

/-- C10: listing messages for a session id that matches no stored session
and no stored message succeeds with the empty list and leaves the store
untouched — there is no not-found error path. -/
theorem get_messages_unknown_session_spec (sid : String) (db : DB)
    (hsess : ∀ s ∈ db.sessions, s.id ≠ sid)
    (hmsg : ∀ m ∈ db.messages, m.session_id ≠ sid) :
    (get_messages sid db).1 = [] ∧ (get_messages sid db).2 = db := by
  refine ⟨?_, rfl⟩
  unfold get_messages
  have hnil : db.messages.filter (fun m => m.session_id == sid) = [] := by
    rw [List.filter_eq_nil_iff]
    intro m hm
    simpa using hmsg m hm
  simp [hnil]

theorem get_messages_unknown_session_spec_witness :
    (get_messages "ghost" wDB).1 = [] ∧ (get_messages "ghost" wDB).2 = wDB :=
  get_messages_unknown_session_spec "ghost" wDB
    (by intro s hs; simp [wDB] at hs) (by intro m hm; simp [wDB] at hm)

end Server
